import Mathlib

/-!
Shallow embedding of the query/seed core of the `nodejs-tester` application
(Express + Sequelize e-commerce demo).  Entities carry the columns declared in
`src/server/models/*`; monetary values (`DECIMAL(12,2)` columns, parsed with
`parseFloat` on the JS side) are modelled exactly as rationals; timestamps as
integers (milliseconds since the Unix epoch).  Each route handler that the
claims mention is translated into a pure function over an explicit database
value; the one write path (`POST /api/orders`) additionally returns the trace
of storage-engine operations it performs, so that "rejected before any storage
call" and "transaction fully rolled back" are expressible.
-/

namespace NodeTester

/-- Order status enum (`DataTypes.ENUM` in `models/Order.ts`). -/
inductive OrderStatus
  | pending
  | processing
  | shipped
  | delivered
  | cancelled
deriving DecidableEq, Repr

/-- `users` table row (`models/User.ts`). -/
structure User where
  id : Nat
  email : String
  name : String
  createdAt : Int
deriving DecidableEq, Repr

/-- `categories` table row (`models/Category.ts`). -/
structure Category where
  id : Nat
  name : String
  description : Option String
deriving DecidableEq, Repr

/-- `products` table row (`models/Product.ts`); `price` is `DECIMAL(10,2)`. -/
structure Product where
  id : Nat
  name : String
  description : Option String
  price : ℚ
  stock : Nat
  categoryId : Nat
  createdAt : Int
deriving DecidableEq, Repr

/-- `orders` table row (`models/Order.ts`). -/
structure Order where
  id : Nat
  userId : Nat
  status : OrderStatus
  totalAmount : ℚ
  createdAt : Int
deriving DecidableEq, Repr

/-- `order_items` table row (`models/OrderItem.ts`); `price` is the snapshot
of the product price at order time. -/
structure OrderItem where
  id : Nat
  orderId : Nat
  productId : Nat
  quantity : Nat
  price : ℚ
deriving DecidableEq, Repr

/-- The relational state: one list per table. -/
structure DB where
  users : List User
  categories : List Category
  products : List Product
  orders : List Order
  orderItems : List OrderItem
deriving DecidableEq, Repr

/-- `Product.findByPk` / `categories.find` by primary key. -/
def findProduct (db : DB) (pid : Nat) : Option Product :=
  db.products.find? (fun p => p.id == pid)

/-- Category lookup by id (the `category` association / LEFT JOIN). -/
def findCategory (db : DB) (cid : Nat) : Option Category :=
  db.categories.find? (fun c => c.id == cid)

/-! ## POST /api/orders (`routes/orders.ts`, lines 238–295) -/

/-- One element of the request body's `items` array. -/
structure ReqItem where
  productId : Nat
  quantity : Nat
deriving DecidableEq, Repr

/-- The request body of `POST /api/orders`.  `userId` and `items` are the only
fields the handler destructures; a client may also send `status` and
`totalAmount`, which the handler never reads.  `none` models an absent field
(and, for `items`, a non-array value rejected by the same check). -/
structure OrderReq where
  userId : Option Nat
  items : Option (List ReqItem)
  status : Option OrderStatus
  totalAmount : Option ℚ
deriving DecidableEq, Repr

/-- A storage-engine operation issued by the handler. -/
inductive StorageOp
  | findProductById (pid : Nat)
  | insertOrder (o : Order)
  | insertOrderItems (is : List OrderItem)
deriving DecidableEq, Repr

/-- Outcome of `POST /api/orders`. -/
inductive PostResult
  | badRequest
  | productNotFound (pid : Nat)
  | created (o : Order) (items : List OrderItem)
deriving DecidableEq, Repr

/-- Next auto-increment id for the `orders` table. -/
def freshOrderId (db : DB) : Nat :=
  (db.orders.map Order.id).foldr max 0 + 1

/-- Next auto-increment id for the `order_items` table. -/
def freshItemId (db : DB) : Nat :=
  (db.orderItems.map OrderItem.id).foldr max 0 + 1

/-- The `for (const item of items)` loop of the transaction body: look up each
product, accumulate `totalAmount += price * item.quantity`, and push
`{productId, quantity, price}`.  Returns the loop result (or the first missing
product id) together with the reads issued. -/
def loopItems (db : DB) :
    List ReqItem → ℚ → List (Nat × Nat × ℚ) →
    Except Nat (ℚ × List (Nat × Nat × ℚ)) × List StorageOp
  | [], tot, acc => (.ok (tot, acc), [])
  | it :: rest, tot, acc =>
    match findProduct db it.productId with
    | none => (.error it.productId, [.findProductById it.productId])
    | some p =>
      let r := loopItems db rest (tot + p.price * it.quantity)
        (acc ++ [(it.productId, it.quantity, p.price)])
      (r.1, .findProductById it.productId :: r.2)

/-- `OrderItem.bulkCreate(orderItems.map(item => ({...item, orderId})))` with
auto-increment ids starting at `iid`. -/
def mkOrderItems (iid oid : Nat) : List (Nat × Nat × ℚ) → List OrderItem
  | [] => []
  | (pid, qty, price) :: rest =>
    { id := iid, orderId := oid, productId := pid, quantity := qty,
      price := price } :: mkOrderItems (iid + 1) oid rest

/-- The price the transaction reads for a product id
(`parseFloat(product.price.toString())`); `0` when the product is absent
(that case throws instead, so the default is never observable). -/
def priceOf (db : DB) (pid : Nat) : ℚ :=
  ((findProduct db pid).map Product.price).getD 0

/-- The whole `POST /api/orders` handler: validation, then the transaction.
Returns the HTTP-level outcome, the storage operations performed, and the
database state after the request (unchanged unless the transaction commits).
`now` is the clock value used for the created row's `createdAt`. -/
def handlePostOrder (db : DB) (now : Int) (req : OrderReq) :
    PostResult × List StorageOp × DB :=
  match req.userId, req.items with
  | none, _ => (.badRequest, [], db)
  | some _, none => (.badRequest, [], db)
  | some u, some its =>
    if u == 0 || its.length == 0 then
      (.badRequest, [], db)
    else
      match (loopItems db its 0 []).1 with
      | .error pid => (.productNotFound pid, (loopItems db its 0 []).2, db)
      | .ok (tot, specs) =>
        let order : Order :=
          { id := freshOrderId db, userId := u, status := .pending,
            totalAmount := tot, createdAt := now }
        let newItems := mkOrderItems (freshItemId db) order.id specs
        (.created order newItems,
         (loopItems db its 0 []).2 ++ [.insertOrder order, .insertOrderItems newItems],
         { db with orders := db.orders ++ [order],
                   orderItems := db.orderItems ++ newItems })

/-- A concrete dataset used by the witnesses: two products priced 10.00 and
5.00 in one category, one user, no orders yet. -/
def dbEx : DB :=
  { users := [{ id := 1, email := "u1@example.com", name := "U One",
                createdAt := 1600000000000 }],
    categories := [{ id := 1, name := "Gadgets", description := none }],
    products :=
      [{ id := 1, name := "P1", description := none, price := 10, stock := 5,
         categoryId := 1, createdAt := 0 },
       { id := 2, name := "P2", description := none, price := 5, stock := 7,
         categoryId := 1, createdAt := 0 }],
    orders := [],
    orderItems := [] }

/-! ## Pagination (`GET /api/users/paginated`, `GET /api/orders`) -/

/-- `parseInt(req.query.page) || 1`: an absent/unparsable page — and page `0`,
which is falsy in JS — falls back to `1`. -/
def parsePage (q : Option Nat) : Nat :=
  match q with
  | none => 1
  | some n => if n == 0 then 1 else n

/-- `Math.min(parseInt(req.query.pageSize) || 20, 100)`. -/
def parsePageSize (q : Option Nat) : Nat :=
  min (match q with
       | none => 20
       | some n => if n == 0 then 20 else n) 100

/-- The paginated response envelope `{data, total, page, pageSize, totalPages}`. -/
structure Paginated (α : Type) where
  data : List α
  total : Nat
  page : Nat
  pageSize : Nat
  totalPages : Nat
deriving DecidableEq, Repr

/-- `findAndCountAll({limit, offset})` plus the envelope construction shared
verbatim by the paginated endpoints: `offset = (page-1)*pageSize`,
`totalPages = Math.ceil(count/pageSize)`. -/
def paginate {α : Type} (rows : List α) (qpage qpageSize : Option Nat) :
    Paginated α :=
  let page := parsePage qpage
  let pageSize := parsePageSize qpageSize
  let offset := (page - 1) * pageSize
  { data := (rows.drop offset).take pageSize,
    total := rows.length,
    page := page,
    pageSize := pageSize,
    totalPages := (rows.length + pageSize - 1) / pageSize }

/-- `order: [['createdAt', 'DESC']]`. -/
def sortDescBy {α : Type} (key : α → Int) (l : List α) : List α :=
  List.insertionSort (fun a b => key b ≤ key a) l

/-- `GET /api/users/paginated`. -/
def usersPaginated (db : DB) (qpage qpageSize : Option Nat) : Paginated User :=
  paginate (sortDescBy User.createdAt db.users) qpage qpageSize

/-- `GET /api/orders` (the paginated order list). -/
def ordersIndex (db : DB) (qpage qpageSize : Option Nat) : Paginated Order :=
  paginate (sortDescBy Order.createdAt db.orders) qpage qpageSize

/-! ## Date-range search (`GET /api/orders/search`, `GET /api/users/search/by-date`) -/

/-- `new Date('2020-01-01').getTime()`, in UTC milliseconds: the fixed floor
used as the default start bound. -/
def epoch2020 : Int := 1577836800000

/-- The `createdAt` part of the where-clause in `GET /api/orders/search`:
it is added only under `if (startDate || endDate)`, and inside it each unset
bound defaults (`'2020-01-01'` / `new Date().toISOString()`). -/
def dateMatches (startDate endDate : Option Int) (now : Int) (o : Order) : Bool :=
  match startDate, endDate with
  | none, none => true
  | s, e =>
    decide (s.getD epoch2020 ≤ o.createdAt) && decide (o.createdAt ≤ e.getD now)

/-- `if (status) whereClause.status = status`. -/
def statusMatches (status : Option OrderStatus) (o : Order) : Bool :=
  match status with
  | none => true
  | some st => o.status == st

/-- `if (minAmount) whereClause.totalAmount = { [Op.gte]: ... }`. -/
def amountMatches (minAmount : Option ℚ) (o : Order) : Bool :=
  match minAmount with
  | none => true
  | some m => decide (m ≤ o.totalAmount)

/-- `GET /api/orders/search` (which orders are returned; the handler also
eager-loads `user` and `items` onto each row). -/
def ordersSearch (db : DB) (now : Int) (startDate endDate : Option Int)
    (status : Option OrderStatus) (minAmount : Option ℚ) : List Order :=
  sortDescBy Order.createdAt
    (db.orders.filter (fun o =>
      dateMatches startDate endDate now o && statusMatches status o
        && amountMatches minAmount o))

/-- `GET /api/users/search/by-date`: here the `Op.between` clause is applied
unconditionally, with the same per-bound defaults. -/
def usersSearchByDate (db : DB) (now : Int) (startDate endDate : Option Int) :
    List User :=
  db.users.filter (fun u =>
    decide (startDate.getD epoch2020 ≤ u.createdAt)
      && decide (u.createdAt ≤ endDate.getD now))

/-- A dataset whose only order was created in 1970, i.e. before the
2020-01-01 floor. -/
def dbOld : DB :=
  { users := [{ id := 1, email := "old@example.com", name := "Old",
                createdAt := 0 }],
    categories := [],
    products := [],
    orders := [{ id := 1, userId := 1, status := .pending, totalAmount := 10,
                 createdAt := 0 }],
    orderItems := [] }

/-! ## Dataset Generator: uniqueness of generated emails and category names
(`seed.ts`, `seedUsers` / `seedCategories`) -/

/-- One `do { value = faker...() } while (used.has(value))` loop: draw from
the random stream until a value not yet in the in-memory set is found;
`none` if the (modelled, finite) stream runs out. -/
def pickFresh (used : List String) : List String → Option (String × List String)
  | [] => none
  | e :: rest => if e ∈ used then pickFresh used rest else some (e, rest)

/-- Generate `count` values from the faker stream, deduplicating only against
the set accumulated in this run (`usedEmails` in `seedUsers`, the
`categoryNames` set in `seedCategories`).  The stream of random draws is the
only run-dependent input: the generator has no run-identifier parameter. -/
def dedupDraws : Nat → List String → List String → List String
  | 0, _, _ => []
  | n + 1, stream, used =>
    match pickFresh used stream with
    | none => []
    | some (e, rest) => e :: dedupDraws n rest (e :: used)

/-- The emails produced by `seedUsers(count)` given the faker draw stream. -/
def seedUsersEmails (count : Nat) (stream : List String) : List String :=
  dedupDraws count stream []

/-- The category names produced by `seedCategories(count)` given the faker
draw stream (a JS `Set` ignores duplicate adds, which is the same
skip-used-draws loop). -/
def seedCategoryNames (count : Nat) (stream : List String) : List String :=
  dedupDraws count stream []

/-! ## Product report: in-memory fold (`GET /api/products/report`) vs
storage-engine aggregation (`GET /api/products/report-optimized`) -/

/-- One row of either product report. -/
structure ReportRow where
  id : Nat
  name : String
  category : Option String
  stock : Nat
  totalSold : Nat
  totalRevenue : ℚ
  orderCount : Nat
deriving DecidableEq, Repr

/-- `product.category?.name` in the slow path, `c.name` after
`LEFT JOIN categories` in the fast path. -/
def categoryName (db : DB) (cid : Nat) : Option String :=
  (findCategory db cid).map Category.name

/-- One row of the slow report: the in-memory fold over the product's eager
loaded `orderItems` (`totalSold` sums quantities, `totalRevenue` sums
`quantity * parseFloat(price)`, `orderCount` is `items.length`). -/
def reportRowOf (db : DB) (p : Product) : ReportRow :=
  let items := db.orderItems.filter (fun oi => oi.productId == p.id)
  { id := p.id, name := p.name, category := categoryName db p.categoryId,
    stock := p.stock,
    totalSold := (items.map OrderItem.quantity).sum,
    totalRevenue := (items.map (fun oi => (oi.quantity : ℚ) * oi.price)).sum,
    orderCount := items.length }

/-- `GET /api/products/report`: all products with their items, folded in
application memory. -/
def productReport (db : DB) : List ReportRow :=
  db.products.map (reportRowOf db)

/-- The join rows contributed by one product in `FROM products p LEFT JOIN
order_items oi ON p.id = oi."productId"`: one row per matching item, or a
single row with a NULL item side when no item matches. -/
def joinBlock (db : DB) (p : Product) : List (Product × Option OrderItem) :=
  match db.orderItems.filter (fun oi => oi.productId == p.id) with
  | [] => [(p, none)]
  | ms => ms.map (fun oi => (p, some oi))

/-- All rows of the LEFT JOIN. -/
def leftJoinRows (db : DB) : List (Product × Option OrderItem) :=
  db.products.flatMap (joinBlock db)

/-- The `GROUP BY p.id, p.name, c.name, p.stock` key of a joined row. -/
def pkey (db : DB) (p : Product) : Nat × String × Option String × Nat :=
  (p.id, p.name, categoryName db p.categoryId, p.stock)

/-- The aggregated output row of one `GROUP BY` group:
`COALESCE(SUM(oi.quantity), 0)`, `COALESCE(SUM(oi.quantity * oi.price), 0)`
and `COUNT(DISTINCT oi.id)` over the group's non-NULL item sides. -/
def groupRow (db : DB) (rows : List (Product × Option OrderItem))
    (k : Nat × String × Option String × Nat) : ReportRow :=
  let grp := (rows.filter (fun r => decide (pkey db r.1 = k))).filterMap Prod.snd
  { id := k.1, name := k.2.1, category := k.2.2.1, stock := k.2.2.2,
    totalSold := (grp.map OrderItem.quantity).sum,
    totalRevenue := (grp.map (fun oi => (oi.quantity : ℚ) * oi.price)).sum,
    orderCount := ((grp.map OrderItem.id).dedup).length }

/-- `GET /api/products/report-optimized`: the raw aggregation query — group
the joined rows by the grouping key, aggregate per group, and
`ORDER BY "totalRevenue" DESC`. -/
def productReportOptimized (db : DB) : List ReportRow :=
  let rows := leftJoinRows db
  let keys := (rows.map (fun r => pkey db r.1)).dedup
  List.insertionSort (fun a b => b.totalRevenue ≤ a.totalRevenue)
    (keys.map (groupRow db rows))

/-! ## User orders: N+1 variant vs eager-loaded variant
(`GET /api/users/:id/orders`, `GET /api/users/:id/orders-optimized`) -/

/-- A product as serialised in a response, with its optionally eager-loaded
category. -/
structure ProductOut where
  id : Nat
  name : String
  description : Option String
  price : ℚ
  stock : Nat
  categoryId : Nat
  createdAt : Int
  category : Option Category
deriving DecidableEq, Repr

/-- An order-item row as serialised, with its attached product (if found). -/
structure ItemOut where
  id : Nat
  orderId : Nat
  productId : Nat
  quantity : Nat
  price : ℚ
  product : Option ProductOut
deriving DecidableEq, Repr

/-- An order as serialised, with its attached item rows. -/
structure OrderOut where
  id : Nat
  userId : Nat
  status : OrderStatus
  totalAmount : ℚ
  createdAt : Int
  items : List ItemOut
deriving DecidableEq, Repr

/-- `product.toJSON()` after a bare `Product.findByPk` (no include): the
serialised product carries no `category` key. -/
def productJSON (p : Product) : ProductOut :=
  { id := p.id, name := p.name, description := p.description, price := p.price,
    stock := p.stock, categoryId := p.categoryId, createdAt := p.createdAt,
    category := none }

/-- A product serialised with its eager-loaded category
(`include: ['category']`). -/
def productWithCategory (db : DB) (p : Product) : ProductOut :=
  { id := p.id, name := p.name, description := p.description, price := p.price,
    stock := p.stock, categoryId := p.categoryId, createdAt := p.createdAt,
    category := findCategory db p.categoryId }

/-- `GET /api/users/:id/orders` (N+1 variant): fetch the user's orders by
recency, then per order fetch its items, then per item `findByPk` its
product. -/
def userOrders (db : DB) (uid : Nat) : List OrderOut :=
  (sortDescBy Order.createdAt (db.orders.filter (fun o => o.userId == uid))).map
    (fun o =>
      { id := o.id, userId := o.userId, status := o.status,
        totalAmount := o.totalAmount, createdAt := o.createdAt,
        items := (db.orderItems.filter (fun i => i.orderId == o.id)).map
          (fun i =>
            { id := i.id, orderId := i.orderId, productId := i.productId,
              quantity := i.quantity, price := i.price,
              product := (findProduct db i.productId).map productJSON }) })

/-- `GET /api/users/:id/orders-optimized`: one query eager-loading
orders → items → product → category. -/
def userOrdersOptimized (db : DB) (uid : Nat) : List OrderOut :=
  (sortDescBy Order.createdAt (db.orders.filter (fun o => o.userId == uid))).map
    (fun o =>
      { id := o.id, userId := o.userId, status := o.status,
        totalAmount := o.totalAmount, createdAt := o.createdAt,
        items := (db.orderItems.filter (fun i => i.orderId == o.id)).map
          (fun i =>
            { id := i.id, orderId := i.orderId, productId := i.productId,
              quantity := i.quantity, price := i.price,
              product := (findProduct db i.productId).map
                (productWithCategory db) }) })

/-- Erase the nested `category` object from every product of a serialised
order (the only field on which the two variants differ). -/
def stripCategory (o : OrderOut) : OrderOut :=
  { o with items := o.items.map (fun i =>
      { i with product := i.product.map (fun p => { p with category := none }) }) }

/-- A dataset on which the two user-order variants can be compared: one user
with one one-item order on a categorised product. -/
def dbC2 : DB :=
  { users := [{ id := 1, email := "u1@example.com", name := "U One",
                createdAt := 0 }],
    categories := [{ id := 1, name := "Gadgets", description := none }],
    products := [{ id := 1, name := "P1", description := none, price := 10,
                   stock := 5, categoryId := 1, createdAt := 0 }],
    orders := [{ id := 1, userId := 1, status := .pending, totalAmount := 10,
                 createdAt := 0 }],
    orderItems := [{ id := 1, orderId := 1, productId := 1, quantity := 1,
                     price := 10 }] }

/-! ## Dataset Generator: order seeding (`seed.ts`, `seedOrders`) -/

/-- One planned order of a `seedOrders` batch, with the faker draws (user,
status, creation date, chosen products and quantities) made explicit. -/
structure OrderPlan where
  userId : Nat
  status : OrderStatus
  createdAt : Int
  items : List (Product × Nat)
deriving DecidableEq, Repr

/-- A write issued against the storage engine by `seedOrders`. -/
inductive SeedWrite
  | insertOrders (os : List Order)
  | insertItems (is : List OrderItem)
  | updateTotal (orderId : Nat) (amount : ℚ)
deriving DecidableEq, Repr

/-- `Order.bulkCreate(orderBatch)`: every row is persisted with
`totalAmount: 0` (the comment in the source says "Will be calculated from
items"). -/
def mkSeedOrders (oid : Nat) : List OrderPlan → List Order
  | [] => []
  | pl :: rest =>
    { id := oid, userId := pl.userId, status := pl.status, totalAmount := 0,
      createdAt := pl.createdAt } :: mkSeedOrders (oid + 1) rest

/-- The item rows pushed for one order: for each selected product,
`{orderId, productId, quantity, price: parseFloat(product.price)}`. -/
def mkPlanItems (iid oid : Nat) : List (Product × Nat) → List OrderItem
  | [] => []
  | (p, qty) :: rest =>
    { id := iid, orderId := oid, productId := p.id, quantity := qty,
      price := p.price } :: mkPlanItems (iid + 1) oid rest

/-- The whole `itemBatch` accumulated across the batch's orders. -/
def mkSeedItems (iid oid : Nat) : List OrderPlan → List OrderItem
  | [] => []
  | pl :: rest =>
    mkPlanItems iid oid pl.items
      ++ mkSeedItems (iid + pl.items.length) (oid + 1) rest

/-- `orderTotal`: the sum accumulated over the order's selected products. -/
def planTotal (pl : OrderPlan) : ℚ :=
  (pl.items.map (fun pq => pq.1.price * (pq.2 : ℚ))).sum

/-- The trailing update pass:
`Order.update({ totalAmount }, { where: { id } })` for each order. -/
def mkSeedUpdates (oid : Nat) : List OrderPlan → List SeedWrite
  | [] => []
  | pl :: rest => .updateTotal oid (planTotal pl) :: mkSeedUpdates (oid + 1) rest

/-- One batch iteration of `seedOrders`: bulk-insert the order rows (totals
zero), bulk-insert the item batch when non-empty, then patch each order's
total in a separate update pass. -/
def seedOrdersBatch (oid iid : Nat) (plans : List OrderPlan) : List SeedWrite :=
  [.insertOrders (mkSeedOrders oid plans)]
    ++ (if 0 < (mkSeedItems iid oid plans).length
        then [.insertItems (mkSeedItems iid oid plans)] else [])
    ++ mkSeedUpdates oid plans

/-- `UPDATE orders SET totalAmount = amt WHERE id = oid`. -/
def applyUpdate (oid : Nat) (amt : ℚ) (os : List Order) : List Order :=
  os.map (fun o => if o.id == oid then { o with totalAmount := amt } else o)

/-- Effect of a single seed write on the stored state. -/
def applySeedWrite (db : DB) : SeedWrite → DB
  | .insertOrders os => { db with orders := db.orders ++ os }
  | .insertItems is => { db with orderItems := db.orderItems ++ is }
  | .updateTotal oid amt => { db with orders := applyUpdate oid amt db.orders }

/-- Effect of a seed-write sequence on the stored state. -/
def applySeedWrites (db : DB) (ws : List SeedWrite) : DB :=
  ws.foldl applySeedWrite db

/-- The update pass, acting on the order table only. -/
def applyUpdatesList (oid : Nat) : List OrderPlan → List Order → List Order
  | [], os => os
  | pl :: rest, os => applyUpdatesList (oid + 1) rest (applyUpdate oid (planTotal pl) os)

/-- The order rows as they stand after the update pass. -/
def mkFinalOrders (oid : Nat) : List OrderPlan → List Order
  | [] => []
  | pl :: rest =>
    { id := oid, userId := pl.userId, status := pl.status,
      totalAmount := planTotal pl, createdAt := pl.createdAt }
      :: mkFinalOrders (oid + 1) rest

/-- An empty stored state (the generator starts from
`sequelize.sync({ force: true })`). -/
def emptyDB : DB :=
  { users := [], categories := [], products := [], orders := [], orderItems := [] }

/-- A product priced 10.00, used by the seeding counterexample. -/
def pEx10 : Product :=
  { id := 1, name := "P1", description := none, price := 10, stock := 5,
    categoryId := 1, createdAt := 0 }

/-- A one-order plan whose single item costs 10.00. -/
def planEx : OrderPlan :=
  { userId := 1, status := .pending, createdAt := 0, items := [(pEx10, 1)] }

/-! ## Lemmas about the order-creation loop -/

theorem loopItems_ok (db : DB) (its : List ReqItem) (tot : ℚ)
    (acc : List (Nat × Nat × ℚ))
    (h : ∀ it ∈ its, (findProduct db it.productId).isSome) :
    loopItems db its tot acc =
      (.ok (tot + (its.map (fun it => priceOf db it.productId * it.quantity)).sum,
            acc ++ its.map (fun it => (it.productId, it.quantity, priceOf db it.productId))),
       its.map (fun it => .findProductById it.productId)) := by
  induction its generalizing tot acc with
  | nil => simp [loopItems]
  | cons it rest ih =>
    have hs : (findProduct db it.productId).isSome := h it (List.mem_cons_self _ _)
    obtain ⟨p, hp⟩ : ∃ p, findProduct db it.productId = some p :=
      Option.isSome_iff_exists.mp hs
    have hrest : ∀ x ∈ rest, (findProduct db x.productId).isSome :=
      fun x hx => h x (List.mem_cons_of_mem _ hx)
    simp only [loopItems, hp]
    rw [ih _ _ hrest]
    simp [priceOf, hp, add_assoc]

theorem loopItems_error (db : DB) (its : List ReqItem) (tot : ℚ)
    (acc : List (Nat × Nat × ℚ))
    (h : ∃ it ∈ its, findProduct db it.productId = none) :
    ∃ pid ops, loopItems db its tot acc = (.error pid, ops) := by
  induction its generalizing tot acc with
  | nil => simp at h
  | cons it rest ih =>
    by_cases hit : findProduct db it.productId = none
    · exact ⟨it.productId, [.findProductById it.productId], by simp [loopItems, hit]⟩
    · obtain ⟨p, hp⟩ := Option.ne_none_iff_exists'.mp hit
      have hrest : ∃ x ∈ rest, findProduct db x.productId = none := by
        rcases h with ⟨x, hx, hnone⟩
        rcases List.mem_cons.mp hx with rfl | hx'
        · exact absurd hnone hit
        · exact ⟨x, hx', hnone⟩
      obtain ⟨pid, ops, hres⟩ :=
        ih (tot + p.price * it.quantity)
          (acc ++ [(it.productId, it.quantity, p.price)]) hrest
      exact ⟨pid, .findProductById it.productId :: ops,
        by simp [loopItems, hp, hres]⟩

theorem loopItems_total (db : DB) (its : List ReqItem) (t tot : ℚ)
    (acc specs : List (Nat × Nat × ℚ))
    (h : (loopItems db its t acc).1 = .ok (tot, specs)) :
    ∃ rest, specs = acc ++ rest ∧
      tot = t + (rest.map (fun s => s.2.2 * (s.2.1 : ℚ))).sum := by
  induction its generalizing t acc with
  | nil =>
    have h' : (Except.ok (t, acc) : Except Nat (ℚ × List (Nat × Nat × ℚ)))
        = .ok (tot, specs) := h
    injection h' with h'
    injection h' with h1 h2
    subst h1; subst h2
    exact ⟨[], by simp⟩
  | cons it rest ih =>
    cases hp : findProduct db it.productId with
    | none => simp [loopItems, hp] at h
    | some p =>
      have h' : (loopItems db rest (t + p.price * it.quantity)
          (acc ++ [(it.productId, it.quantity, p.price)])).1 = .ok (tot, specs) := by
        simpa [loopItems, hp] using h
      obtain ⟨r, hr1, hr2⟩ := ih _ _ h'
      refine ⟨(it.productId, it.quantity, p.price) :: r, ?_, ?_⟩
      · simp [hr1]
      · simp [hr2, add_assoc]

theorem mkOrderItems_fields (iid oid : Nat) (specs : List (Nat × Nat × ℚ)) :
    (mkOrderItems iid oid specs).map (fun i => (i.productId, i.quantity, i.price))
      = specs := by
  induction specs generalizing iid with
  | nil => simp [mkOrderItems]
  | cons s rest ih => simp [mkOrderItems, ih]

theorem mkOrderItems_length (iid oid : Nat) (specs : List (Nat × Nat × ℚ)) :
    (mkOrderItems iid oid specs).length = specs.length := by
  induction specs generalizing iid with
  | nil => rfl
  | cons s rest ih => simp [mkOrderItems, ih]

/-- C9: a `POST /api/orders` request with a missing user id, a missing (or
non-array) `items` field, or an empty item list is rejected as bad input
before any storage-engine call: the storage trace is empty and the stored
state is unchanged. -/
theorem postOrder_bad_input_rejected_before_storage
    (db : DB) (now : Int) (req : OrderReq)
    (h : req.userId = none ∨ req.items = none ∨ req.items = some []) :
    handlePostOrder db now req = (.badRequest, [], db) := by
  rcases h with h | h | h
  · simp [handlePostOrder, h]
  · cases hu : req.userId <;> simp [handlePostOrder, h, hu]
  · cases hu : req.userId <;> simp [handlePostOrder, h, hu]

theorem postOrder_bad_input_witness :
    (({ userId := some 1, items := some [], status := none,
        totalAmount := none } : OrderReq).items = some [])
    ∧ handlePostOrder dbEx 0
        { userId := some 1, items := some [], status := none, totalAmount := none }
        = (.badRequest, [], dbEx) :=
  ⟨rfl, postOrder_bad_input_rejected_before_storage dbEx 0 _ (Or.inr (Or.inr rfl))⟩

/-- C4: when the item list references at least one product id that does not
exist, the transaction of `POST /api/orders` aborts entirely: the handler
reports the missing product and the database is returned unchanged — no order
row and no item rows are persisted. -/
theorem postOrder_missing_product_aborts
    (db : DB) (now : Int) (req : OrderReq) (u : Nat) (its : List ReqItem)
    (hu : req.userId = some u) (hnz : u ≠ 0)
    (hits : req.items = some its) (hne : its ≠ [])
    (hmiss : ∃ it ∈ its, findProduct db it.productId = none) :
    ∃ pid ops, handlePostOrder db now req = (.productNotFound pid, ops, db) := by
  obtain ⟨pid, ops, hloop⟩ := loopItems_error db its 0 [] hmiss
  have h1 : (u == 0) = false := beq_eq_false_iff_ne.mpr hnz
  have h2 : (its.length == 0) = false :=
    beq_eq_false_iff_ne.mpr (fun hl => hne (List.length_eq_zero.mp hl))
  exact ⟨pid, ops, by simp [handlePostOrder, hu, hits, h1, h2, hloop]⟩

theorem postOrder_missing_product_witness :
    (∃ it ∈ [({ productId := 99, quantity := 1 } : ReqItem)],
        findProduct dbEx it.productId = none)
    ∧ ∃ pid ops,
        handlePostOrder dbEx 0
          { userId := some 1, items := some [{ productId := 99, quantity := 1 }],
            status := none, totalAmount := none }
          = (.productNotFound pid, ops, dbEx) :=
  ⟨by decide,
   postOrder_missing_product_aborts dbEx 0 _ 1 [{ productId := 99, quantity := 1 }]
     rfl (by decide) rfl (by decide) (by decide)⟩

/-- C3: a successful `POST /api/orders` persists exactly one order whose
`totalAmount` is the sum over the request items of quantity times the
referenced product's current price, together with one `OrderItem` row per
request item whose `price` snapshots that product price. -/
theorem postOrder_total_is_sum_of_snapshot_prices
    (db : DB) (now : Int) (req : OrderReq) (u : Nat) (its : List ReqItem)
    (hu : req.userId = some u) (hnz : u ≠ 0)
    (hits : req.items = some its) (hne : its ≠ [])
    (hall : ∀ it ∈ its, (findProduct db it.productId).isSome) :
    ∃ o newItems,
      (handlePostOrder db now req).1 = .created o newItems
      ∧ (handlePostOrder db now req).2.2 =
          { db with orders := db.orders ++ [o],
                    orderItems := db.orderItems ++ newItems }
      ∧ o.totalAmount
          = (its.map (fun it => priceOf db it.productId * (it.quantity : ℚ))).sum
      ∧ newItems.map (fun i => (i.productId, i.quantity, i.price))
          = its.map (fun it => (it.productId, it.quantity, priceOf db it.productId))
      ∧ newItems.length = its.length := by
  have hloop := loopItems_ok db its 0 [] hall
  have h1 : (u == 0) = false := beq_eq_false_iff_ne.mpr hnz
  have h2 : (its.length == 0) = false :=
    beq_eq_false_iff_ne.mpr (fun hl => hne (List.length_eq_zero.mp hl))
  refine ⟨{ id := freshOrderId db, userId := u, status := .pending,
            totalAmount :=
              (its.map (fun it => priceOf db it.productId * (it.quantity : ℚ))).sum,
            createdAt := now },
          mkOrderItems (freshItemId db) (freshOrderId db)
            (its.map (fun it => (it.productId, it.quantity, priceOf db it.productId))),
          ?_, ?_, rfl, ?_, ?_⟩
  · simp [handlePostOrder, hu, hits, h1, h2, hloop]
  · simp [handlePostOrder, hu, hits, h1, h2, hloop]
  · exact mkOrderItems_fields _ _ _
  · rw [mkOrderItems_length, List.length_map]

theorem postOrder_total_witness :
    (∀ it ∈ [({ productId := 1, quantity := 2 } : ReqItem),
             { productId := 2, quantity := 1 }],
        (findProduct dbEx it.productId).isSome)
    ∧ (∃ o newItems,
        (handlePostOrder dbEx 0
          { userId := some 1,
            items := some [{ productId := 1, quantity := 2 },
                           { productId := 2, quantity := 1 }],
            status := none, totalAmount := none }).1 = .created o newItems
        ∧ (handlePostOrder dbEx 0
            { userId := some 1,
              items := some [{ productId := 1, quantity := 2 },
                             { productId := 2, quantity := 1 }],
              status := none, totalAmount := none }).2.2 =
            { dbEx with orders := dbEx.orders ++ [o],
                        orderItems := dbEx.orderItems ++ newItems }
        ∧ o.totalAmount
            = ([({ productId := 1, quantity := 2 } : ReqItem),
                { productId := 2, quantity := 1 }].map
                (fun it => priceOf dbEx it.productId * (it.quantity : ℚ))).sum
        ∧ newItems.map (fun i => (i.productId, i.quantity, i.price))
            = [({ productId := 1, quantity := 2 } : ReqItem),
               { productId := 2, quantity := 1 }].map
                (fun it => (it.productId, it.quantity, priceOf dbEx it.productId))
        ∧ newItems.length =
            [({ productId := 1, quantity := 2 } : ReqItem),
             { productId := 2, quantity := 1 }].length)
    ∧ (handlePostOrder dbEx 0
        { userId := some 1,
          items := some [{ productId := 1, quantity := 2 },
                         { productId := 2, quantity := 1 }],
          status := none, totalAmount := none }).1
        = .created { id := 1, userId := 1, status := .pending,
                     totalAmount := 25, createdAt := 0 }
            [{ id := 1, orderId := 1, productId := 1, quantity := 2, price := 10 },
             { id := 2, orderId := 1, productId := 2, quantity := 1, price := 5 }] :=
  ⟨by decide,
   postOrder_total_is_sum_of_snapshot_prices dbEx 0 _ 1
     [{ productId := 1, quantity := 2 }, { productId := 2, quantity := 1 }]
     rfl (by decide) rfl (by decide) (by decide),
   by
    simp [handlePostOrder, dbEx, loopItems, findProduct, mkOrderItems,
      freshOrderId, freshItemId]
    norm_num⟩

/-- C10: the handler of `POST /api/orders` never reads `status` or
`totalAmount` from the request body — the response is unchanged whatever a
client puts there — and every created order has status `pending` and the
server-computed total (the sum of its item rows' `price * quantity`). -/
theorem postOrder_ignores_client_status_and_total
    (db : DB) (now : Int) (req : OrderReq) (s : Option OrderStatus) (t : Option ℚ) :
    handlePostOrder db now { req with status := s, totalAmount := t }
        = handlePostOrder db now req
    ∧ (∀ o ni rest, handlePostOrder db now req = (.created o ni, rest) →
        o.status = .pending
        ∧ o.totalAmount = (ni.map (fun i => i.price * (i.quantity : ℚ))).sum) := by
  refine ⟨rfl, ?_⟩
  intro o ni rest h
  rw [handlePostOrder] at h
  cases hu : req.userId with
  | none => rw [hu] at h; simp at h
  | some u =>
    rw [hu] at h
    cases hits : req.items with
    | none => rw [hits] at h; simp at h
    | some its =>
      rw [hits] at h
      cases hcond : (u == 0 || its.length == 0) with
      | true => simp [hcond] at h
      | false =>
        simp only [hcond, Bool.false_eq_true, if_false] at h
        cases hl : (loopItems db its 0 []).1 with
        | error pid => rw [hl] at h; simp at h
        | ok pr =>
          obtain ⟨tot, specs⟩ := pr
          rw [hl] at h
          simp only [Prod.mk.injEq, PostResult.created.injEq] at h
          obtain ⟨⟨ho, hni⟩, -⟩ := h
          obtain ⟨r, hr1, hr2⟩ := loopItems_total db its 0 tot [] specs hl
          refine ⟨by rw [← ho], ?_⟩
          rw [← ho, ← hni]

          have hmap : (mkOrderItems (freshItemId db) (freshOrderId db) specs).map
              (fun i => i.price * (i.quantity : ℚ))
                = specs.map (fun sp => sp.2.2 * (sp.2.1 : ℚ)) := by
            have := mkOrderItems_fields (freshItemId db) (freshOrderId db) specs
            calc (mkOrderItems (freshItemId db) (freshOrderId db) specs).map
                  (fun i => i.price * (i.quantity : ℚ))
                = ((mkOrderItems (freshItemId db) (freshOrderId db) specs).map
                    (fun i => (i.productId, i.quantity, i.price))).map
                    (fun sp => sp.2.2 * (sp.2.1 : ℚ)) := by
                  rw [List.map_map]; rfl
              _ = specs.map (fun sp => sp.2.2 * (sp.2.1 : ℚ)) := by rw [this]
          simp only [hmap]
          rw [hr2, hr1]
          simp

theorem postOrder_ignores_client_fields_witness :
    (handlePostOrder dbEx 0
        { userId := some 1, items := some [{ productId := 1, quantity := 2 }],
          status := some .shipped, totalAmount := some 999 }
      = handlePostOrder dbEx 0
        { userId := some 1, items := some [{ productId := 1, quantity := 2 }],
          status := none, totalAmount := none })
    ∧ ({ id := 1, userId := 1, status := .pending, totalAmount := 20,
         createdAt := 0 } : Order).status = .pending
    ∧ ({ id := 1, userId := 1, status := .pending, totalAmount := 20,
         createdAt := 0 } : Order).totalAmount
        = (([{ id := 1, orderId := 1, productId := 1, quantity := 2, price := 10 }]
            : List OrderItem).map (fun i => i.price * (i.quantity : ℚ))).sum := by
  have h := postOrder_ignores_client_status_and_total dbEx 0
    { userId := some 1, items := some [{ productId := 1, quantity := 2 }],
      status := none, totalAmount := none } (some .shipped) (some 999)
  refine ⟨h.1,
    h.2 { id := 1, userId := 1, status := .pending, totalAmount := 20,
          createdAt := 0 }
        [{ id := 1, orderId := 1, productId := 1, quantity := 2, price := 10 }]
        ([.findProductById 1,
          .insertOrder { id := 1, userId := 1, status := .pending,
                         totalAmount := 20, createdAt := 0 },
          .insertOrderItems [{ id := 1, orderId := 1, productId := 1,
                               quantity := 2, price := 10 }]],
         { users := dbEx.users, categories := dbEx.categories,
           products := dbEx.products,
           orders := [{ id := 1, userId := 1, status := .pending,
                        totalAmount := 20, createdAt := 0 }],
           orderItems := [{ id := 1, orderId := 1, productId := 1,
                            quantity := 2, price := 10 }] })
        ?_⟩
  simp [handlePostOrder, dbEx, loopItems, findProduct, mkOrderItems,
    freshOrderId, freshItemId]
  norm_num

/-! ## Pagination lemmas -/

theorem parsePageSize_pos (q : Option Nat) : 0 < parsePageSize q := by
  cases q with
  | none => decide
  | some n =>
    by_cases h : n = 0
    · simp [parsePageSize, h]
    · simp only [parsePageSize]
      have : (n == 0) = false := beq_eq_false_iff_ne.mpr h
      rw [this]
      simp
      omega

theorem parsePage_pos (q : Option Nat) : 0 < parsePage q := by
  cases q with
  | none => decide
  | some n =>
    by_cases h : n = 0
    · simp [parsePage, h]
    · have : (n == 0) = false := beq_eq_false_iff_ne.mpr h
      simp only [parsePage, this]
      simp
      omega

theorem nat_ceil_div (N s : Nat) (hs : 0 < s) :
    (((N + s - 1) / s : Nat) : ℤ) = ⌈(N : ℚ) / (s : ℚ)⌉ := by
  have hs' : (0 : ℚ) < (s : ℚ) := by exact_mod_cast hs
  have hdm := Nat.div_add_mod (N + s - 1) s
  have hr : (N + s - 1) % s < s := Nat.mod_lt _ hs
  have h1 : N ≤ s * ((N + s - 1) / s) := by omega
  have h2 : s * ((N + s - 1) / s) < N + s := by omega
  symm
  rw [Int.ceil_eq_iff]
  constructor
  · show ((((N + s - 1) / s : Nat) : ℤ) : ℚ) - 1 < (N : ℚ) / (s : ℚ)
    rw [Int.cast_natCast, lt_div_iff₀ hs']
    have h2' : (s : ℚ) * (((N + s - 1) / s : Nat) : ℚ) < (N : ℚ) + (s : ℚ) := by
      exact_mod_cast h2
    nlinarith
  · show (N : ℚ) / (s : ℚ) ≤ ((((N + s - 1) / s : Nat) : ℤ) : ℚ)
    rw [Int.cast_natCast, div_le_iff₀ hs']
    have h1' : (N : ℚ) ≤ (s : ℚ) * (((N + s - 1) / s : Nat) : ℚ) := by
      exact_mod_cast h1
    nlinarith

theorem paginate_spec {α : Type} (rows : List α) (qp qs : Option Nat) :
    (((paginate rows qp qs).totalPages : Nat) : ℤ)
        = ⌈(rows.length : ℚ) / (parsePageSize qs : ℚ)⌉
    ∧ (parsePage qp > (paginate rows qp qs).totalPages →
        (paginate rows qp qs).data = [] ∧ (paginate rows qp qs).total = rows.length) := by
  constructor
  · exact nat_ceil_div rows.length (parsePageSize qs) (parsePageSize_pos qs)
  · intro hgt
    refine ⟨?_, rfl⟩
    simp only [paginate] at hgt ⊢
    have hp := parsePage_pos qp
    have hs := parsePageSize_pos qs
    have hdm := Nat.div_add_mod (rows.length + parsePageSize qs - 1) (parsePageSize qs)
    have hr : (rows.length + parsePageSize qs - 1) % parsePageSize qs < parsePageSize qs :=
      Nat.mod_lt _ hs
    have hoff : rows.length ≤ (parsePage qp - 1) * parsePageSize qs := by
      have hq : rows.length ≤
          parsePageSize qs * ((rows.length + parsePageSize qs - 1) / parsePageSize qs) := by
        omega
      calc rows.length
          ≤ parsePageSize qs *
              ((rows.length + parsePageSize qs - 1) / parsePageSize qs) := hq
        _ = ((rows.length + parsePageSize qs - 1) / parsePageSize qs) *
              parsePageSize qs := Nat.mul_comm _ _
        _ ≤ (parsePage qp - 1) * parsePageSize qs :=
            Nat.mul_le_mul_right _ (by omega)
    rw [List.drop_eq_nil_of_le hoff]
    exact List.take_nil

/-- C5: for both paginated list endpoints (`GET /api/users/paginated` and
`GET /api/orders`), `totalPages` is `ceil(total / pageSize)` of the full row
count, and requesting a page past the last one yields a normal response with
an empty `data` array and `total` still equal to the full count. -/
theorem pagination_ceil_totalPages_and_empty_overflow
    (db : DB) (qp qs : Option Nat) :
    (((usersPaginated db qp qs).totalPages : Nat) : ℤ)
        = ⌈(db.users.length : ℚ) / (parsePageSize qs : ℚ)⌉
    ∧ (((ordersIndex db qp qs).totalPages : Nat) : ℤ)
        = ⌈(db.orders.length : ℚ) / (parsePageSize qs : ℚ)⌉
    ∧ (parsePage qp > (usersPaginated db qp qs).totalPages →
        (usersPaginated db qp qs).data = []
        ∧ (usersPaginated db qp qs).total = db.users.length)
    ∧ (parsePage qp > (ordersIndex db qp qs).totalPages →
        (ordersIndex db qp qs).data = []
        ∧ (ordersIndex db qp qs).total = db.orders.length) := by
  have hu := paginate_spec (sortDescBy User.createdAt db.users) qp qs
  have ho := paginate_spec (sortDescBy Order.createdAt db.orders) qp qs
  have hul : (sortDescBy User.createdAt db.users).length = db.users.length :=
    (List.perm_insertionSort _ _).length_eq
  have hol : (sortDescBy Order.createdAt db.orders).length = db.orders.length :=
    (List.perm_insertionSort _ _).length_eq
  refine ⟨?_, ?_, ?_, ?_⟩
  · rw [← hul]; exact hu.1
  · rw [← hol]; exact ho.1
  · intro h
    obtain ⟨hd, ht⟩ := hu.2 h
    exact ⟨hd, ht.trans hul⟩
  · intro h
    obtain ⟨hd, ht⟩ := ho.2 h
    exact ⟨hd, ht.trans hol⟩

theorem pagination_witness :
    (parsePage (some 5) > (usersPaginated dbEx (some 5) (some 2)).totalPages)
    ∧ (((usersPaginated dbEx (some 5) (some 2)).totalPages : Nat) : ℤ)
        = ⌈(dbEx.users.length : ℚ) / (parsePageSize (some 2) : ℚ)⌉
    ∧ (usersPaginated dbEx (some 5) (some 2)).data = []
    ∧ (usersPaginated dbEx (some 5) (some 2)).total = dbEx.users.length := by
  have h := pagination_ceil_totalPages_and_empty_overflow dbEx (some 5) (some 2)
  have hgt : parsePage (some 5) > (usersPaginated dbEx (some 5) (some 2)).totalPages := by
    decide
  obtain ⟨hd, ht⟩ := h.2.2.1 hgt
  exact ⟨hgt, h.1, hd, ht⟩

/-! ## Date-range search theorems -/

/-- C8 counterexample: in `GET /api/orders/search` with *both* bounds unset,
the `createdAt` clause is omitted entirely, so an order created in 1970 —
outside the claimed default window `[2020-01-01, now]` — is returned. -/
theorem ordersSearch_no_default_window_when_both_unset :
    ∃ o ∈ ordersSearch dbOld 1700000000000 none none none none,
      o.createdAt < epoch2020 := by decide

/-- C8 amended: the user search applies the `[2020-01-01, now]` defaults
unconditionally; the order search applies the default for a missing bound
only when the *other* bound is set, and with both bounds unset drops the date
constraint entirely (all-time); an explicit range inside the default window
returns a subset of the default-window results. -/
theorem dateSearch_default_bounds (db : DB) (now : Int) (s e : Int)
    (st : Option OrderStatus) (ma : Option ℚ) :
    usersSearchByDate db now none none
        = usersSearchByDate db now (some epoch2020) (some now)
    ∧ ordersSearch db now (some s) none st ma
        = ordersSearch db now (some s) (some now) st ma
    ∧ ordersSearch db now none (some e) st ma
        = ordersSearch db now (some epoch2020) (some e) st ma
    ∧ (∀ o, o ∈ ordersSearch db now none none st ma ↔
        o ∈ db.orders ∧ statusMatches st o ∧ amountMatches ma o)
    ∧ (epoch2020 ≤ s → e ≤ now →
        ∀ u ∈ usersSearchByDate db now (some s) (some e),
          u ∈ usersSearchByDate db now none none)
    ∧ (epoch2020 ≤ s → e ≤ now →
        ∀ o ∈ ordersSearch db now (some s) (some e) st ma,
          o ∈ ordersSearch db now (some epoch2020) (some now) st ma) := by
  refine ⟨rfl, rfl, rfl, ?_, ?_, ?_⟩
  · intro o
    simp [ordersSearch, sortDescBy, List.mem_insertionSort, List.mem_filter,
      dateMatches, and_assoc]
  · intro hs he u hu
    simp only [usersSearchByDate, List.mem_filter, Bool.and_eq_true,
      decide_eq_true_eq, Option.getD_some, Option.getD_none] at hu ⊢
    obtain ⟨hmem, h1, h2⟩ := hu
    exact ⟨hmem, by omega, by omega⟩
  · intro hs he o ho
    simp only [ordersSearch, sortDescBy, List.mem_insertionSort, List.mem_filter,
      Bool.and_eq_true, dateMatches, decide_eq_true_eq, Option.getD_some] at ho ⊢
    obtain ⟨hmem, ⟨⟨h1, h2⟩, hst⟩, ham⟩ := ho
    exact ⟨hmem, ⟨⟨by omega, by omega⟩, hst⟩, ham⟩

theorem dateSearch_default_bounds_witness :
    epoch2020 ≤ epoch2020 + 5 ∧ (1700000000000 - 5 : Int) ≤ 1700000000000
    ∧ (∀ u ∈ usersSearchByDate dbOld 1700000000000
          (some (epoch2020 + 5)) (some (1700000000000 - 5)),
        u ∈ usersSearchByDate dbOld 1700000000000 none none) :=
  ⟨by decide, by decide,
   (dateSearch_default_bounds dbOld 1700000000000 (epoch2020 + 5)
      (1700000000000 - 5) none none).2.2.2.2.1 (by decide) (by decide)⟩

/-! ## Product report lemmas -/

theorem joinBlock_fst (db : DB) (p : Product) :
    ∀ r ∈ joinBlock db p, r.1 = p := by
  rw [joinBlock]
  cases h : db.orderItems.filter (fun oi => oi.productId == p.id) with
  | nil => simp
  | cons m ms =>
    intro r hr
    simp only [List.mem_map] at hr
    obtain ⟨oi, _, rfl⟩ := hr
    rfl

theorem joinBlock_nonempty (db : DB) (p : Product) :
    ∃ r ∈ joinBlock db p, r.1 = p := by
  rw [joinBlock]
  cases h : db.orderItems.filter (fun oi => oi.productId == p.id) with
  | nil => exact ⟨(p, none), List.mem_singleton.mpr rfl, rfl⟩
  | cons m ms =>
    exact ⟨(p, some m), List.mem_map.mpr ⟨m, List.mem_cons_self _ _, rfl⟩, rfl⟩

theorem joinBlock_filterMap_snd (db : DB) (p : Product) :
    (joinBlock db p).filterMap Prod.snd
      = db.orderItems.filter (fun oi => oi.productId == p.id) := by
  rw [joinBlock]
  cases h : db.orderItems.filter (fun oi => oi.productId == p.id) with
  | nil => rfl
  | cons m ms =>
    rw [List.filterMap_map]
    exact List.filterMap_some _

theorem joinBlock_filter_self (db : DB) (p : Product) :
    (joinBlock db p).filter (fun r => decide (pkey db r.1 = pkey db p))
      = joinBlock db p :=
  List.filter_eq_self.mpr (fun r hr => by rw [joinBlock_fst db p r hr]; simp)

theorem joinBlock_filter_ne (db : DB) (q p : Product) (hne : q.id ≠ p.id) :
    (joinBlock db q).filter (fun r => decide (pkey db r.1 = pkey db p))
      = [] :=
  List.filter_eq_nil_iff.mpr (fun r hr => by
    rw [joinBlock_fst db q r hr]
    simp only [decide_eq_true_eq]
    intro hk
    exact hne (congrArg Prod.fst hk))

theorem flatMap_filter_key (db : DB) (p : Product) (ps : List Product)
    (hmem : p ∈ ps) (hnd : (ps.map Product.id).Nodup) :
    ps.flatMap (fun q =>
        (joinBlock db q).filter (fun r => decide (pkey db r.1 = pkey db p)))
      = joinBlock db p := by
  induction ps with
  | nil => cases hmem
  | cons q rest ih =>
    rw [List.flatMap_cons]
    have hnd' := List.nodup_cons.mp hnd
    rcases List.mem_cons.mp hmem with rfl | hmem'
    · rw [joinBlock_filter_self]
      have hrest : rest.flatMap (fun q' =>
          (joinBlock db q').filter (fun r => decide (pkey db r.1 = pkey db p)))
            = [] :=
        List.flatMap_eq_nil_iff.mpr (fun q' hq' =>
          joinBlock_filter_ne db q' p (fun h =>
            hnd'.1 (h ▸ List.mem_map_of_mem Product.id hq')))
      rw [hrest, List.append_nil]
    · have hq : q.id ≠ p.id := fun h =>
        hnd'.1 (h ▸ List.mem_map_of_mem Product.id hmem')
      rw [joinBlock_filter_ne db q p hq, List.nil_append]
      exact ih hmem' hnd'.2

theorem groupRow_eq_reportRow (db : DB) (p : Product)
    (hmem : p ∈ db.products) (hnd : (db.products.map Product.id).Nodup)
    (hitem : (db.orderItems.map OrderItem.id).Nodup) :
    groupRow db (leftJoinRows db) (pkey db p) = reportRowOf db p := by
  have hfilter : (leftJoinRows db).filter
      (fun r => decide (pkey db r.1 = pkey db p)) = joinBlock db p := by
    rw [leftJoinRows, List.filter_flatMap]
    exact flatMap_filter_key db p db.products hmem hnd
  have hnodup : ((db.orderItems.filter
      (fun oi => oi.productId == p.id)).map OrderItem.id).Nodup :=
    List.Nodup.sublist ((List.filter_sublist _).map OrderItem.id) hitem
  simp only [groupRow, reportRowOf]
  rw [hfilter, joinBlock_filterMap_snd]
  rw [hnodup.dedup, List.length_map]
  rfl

theorem leftJoinRows_keys (db : DB) (k : Nat × String × Option String × Nat) :
    k ∈ (leftJoinRows db).map (fun r => pkey db r.1)
      ↔ ∃ p ∈ db.products, pkey db p = k := by
  simp only [leftJoinRows, List.mem_map, List.mem_flatMap]
  constructor
  · rintro ⟨r, ⟨p, hp, hr⟩, rfl⟩
    exact ⟨p, hp, by rw [joinBlock_fst db p r hr]⟩
  · rintro ⟨p, hp, rfl⟩
    obtain ⟨r, hr, hfst⟩ := joinBlock_nonempty db p
    exact ⟨r, ⟨p, hp, hr⟩, by rw [hfst]⟩

/-- C1: on any dataset whose product ids and order-item ids are unique (the
primary-key invariant), the slow in-memory product report and the optimized
`GROUP BY` report contain exactly the same rows — the same `totalSold`,
`totalRevenue` and `orderCount` per product — up to the fast path's
`ORDER BY "totalRevenue" DESC` reordering. -/
theorem productReport_variants_agree (db : DB)
    (hnd : (db.products.map Product.id).Nodup)
    (hitem : (db.orderItems.map OrderItem.id).Nodup) :
    (productReportOptimized db).Perm (productReport db) := by
  have hsort : productReportOptimized db
      = List.insertionSort (fun a b => b.totalRevenue ≤ a.totalRevenue)
          ((((leftJoinRows db).map (fun r => pkey db r.1)).dedup).map
            (groupRow db (leftJoinRows db))) := rfl
  rw [hsort]
  refine (List.perm_insertionSort _ _).trans ?_
  have hPnodup : (db.products.map (pkey db)).Nodup := by
    apply List.Nodup.of_map Prod.fst
    rw [List.map_map]
    exact hnd
  have hkeysperm : (((leftJoinRows db).map (fun r => pkey db r.1)).dedup).Perm
      (db.products.map (pkey db)) := by
    rw [List.perm_ext_iff_of_nodup (List.nodup_dedup _) hPnodup]
    intro k
    rw [List.mem_dedup, leftJoinRows_keys]
    simp only [List.mem_map]
  refine (hkeysperm.map (groupRow db (leftJoinRows db))).trans ?_
  rw [List.map_map]
  have hmapeq : db.products.map (groupRow db (leftJoinRows db) ∘ pkey db)
      = db.products.map (reportRowOf db) :=
    List.map_congr_left (fun p hp => groupRow_eq_reportRow db p hp hnd hitem)
  rw [hmapeq]
  exact List.Perm.refl _

theorem productReport_variants_witness :
    (dbC2.products.map Product.id).Nodup
    ∧ (dbC2.orderItems.map OrderItem.id).Nodup
    ∧ (productReportOptimized dbC2).Perm (productReport dbC2) :=
  ⟨by decide, by decide,
   productReport_variants_agree dbC2 (by decide) (by decide)⟩

/-! ## User-orders variant theorems -/

/-- C2 counterexample: on a dataset with a categorised product, the optimized
variant embeds the product's `category` object in every item's product while
the N+1 variant does not, so the two `data` payloads are not identical. -/
theorem userOrders_variants_differ :
    userOrders dbC2 1 ≠ userOrdersOptimized dbC2 1
    ∧ (∃ o ∈ userOrdersOptimized dbC2 1, ∃ i ∈ o.items,
        i.product.bind ProductOut.category ≠ none)
    ∧ (∀ o ∈ userOrders dbC2 1, ∀ i ∈ o.items,
        i.product.bind ProductOut.category = none) := by decide

/-- C2 amended: the two variants agree on every order and item field except
that the optimized variant additionally nests each product's category;
erasing that nested `category` from the optimized output yields exactly the
N+1 output (same order of rows included). -/
theorem userOrders_optimized_strips_to_slow (db : DB) (uid : Nat) :
    (userOrdersOptimized db uid).map stripCategory = userOrders db uid := by
  simp only [userOrdersOptimized, userOrders, List.map_map]
  apply List.map_congr_left
  intro o ho
  simp only [Function.comp, stripCategory, List.map_map]
  apply congrArg
  apply List.map_congr_left
  intro i hi
  simp only [Function.comp_apply]
  cases findProduct db i.productId with
  | none => rfl
  | some p => rfl

/-! ## Dataset Generator: order-seeding lemmas -/

theorem mkSeedOrders_id_ge (k : Nat) (plans : List OrderPlan) :
    ∀ o ∈ mkSeedOrders k plans, k ≤ o.id := by
  induction plans generalizing k with
  | nil => simp [mkSeedOrders]
  | cons pl rest ih =>
    intro o ho
    rcases List.mem_cons.mp ho with rfl | ho'
    · exact le_refl _
    · exact le_trans (Nat.le_succ _) (ih (k + 1) o ho')

theorem mkSeedOrders_total_zero (k : Nat) (plans : List OrderPlan) :
    ∀ o ∈ mkSeedOrders k plans, o.totalAmount = 0 := by
  induction plans generalizing k with
  | nil => simp [mkSeedOrders]
  | cons pl rest ih =>
    intro o ho
    rcases List.mem_cons.mp ho with rfl | ho'
    · rfl
    · exact ih (k + 1) o ho'

theorem mkSeedUpdates_only_updates (oid : Nat) (plans : List OrderPlan) :
    ∀ w ∈ mkSeedUpdates oid plans, ∃ k a, w = .updateTotal k a := by
  induction plans generalizing oid with
  | nil => simp [mkSeedUpdates]
  | cons pl rest ih =>
    intro w hw
    rcases List.mem_cons.mp hw with rfl | hw'
    · exact ⟨oid, planTotal pl, rfl⟩
    · exact ih (oid + 1) w hw'

theorem mkFinalOrders_id_ge (k : Nat) (plans : List OrderPlan) :
    ∀ o ∈ mkFinalOrders k plans, k ≤ o.id := by
  induction plans generalizing k with
  | nil => simp [mkFinalOrders]
  | cons pl rest ih =>
    intro o ho
    rcases List.mem_cons.mp ho with rfl | ho'
    · exact le_refl _
    · exact le_trans (Nat.le_succ _) (ih (k + 1) o ho')

theorem mkPlanItems_orderId (iid k : Nat) (its : List (Product × Nat)) :
    ∀ i ∈ mkPlanItems iid k its, i.orderId = k := by
  induction its generalizing iid with
  | nil => simp [mkPlanItems]
  | cons pq tl ih =>
    obtain ⟨p, qty⟩ := pq
    intro i hi
    rcases List.mem_cons.mp hi with rfl | hi'
    · rfl
    · exact ih _ i hi'

theorem mkSeedItems_orderId_ge (iid k : Nat) (plans : List OrderPlan) :
    ∀ i ∈ mkSeedItems iid k plans, k ≤ i.orderId := by
  induction plans generalizing iid k with
  | nil => simp [mkSeedItems]
  | cons pl rest ih =>
    intro i hi
    rcases List.mem_append.mp hi with hi' | hi'
    · have := mkPlanItems_orderId iid k pl.items i hi'
      omega
    · exact le_trans (Nat.le_succ _) (ih (iid + pl.items.length) (k + 1) i hi')

theorem mkPlanItems_sum (iid k : Nat) (its : List (Product × Nat)) :
    ((mkPlanItems iid k its).map (fun i => i.price * (i.quantity : ℚ))).sum
      = (its.map (fun pq => pq.1.price * (pq.2 : ℚ))).sum := by
  induction its generalizing iid with
  | nil => rfl
  | cons pq tl ih =>
    obtain ⟨p, qty⟩ := pq
    simp [mkPlanItems, ih]

theorem applyUpdate_skips (k : Nat) (amt : ℚ) (os : List Order)
    (h : ∀ o ∈ os, o.id ≠ k) : applyUpdate k amt os = os := by
  induction os with
  | nil => rfl
  | cons o rest ih =>
    have h0 : (o.id == k) = false :=
      beq_eq_false_iff_ne.mpr (h o (List.mem_cons_self _ _))
    simp only [applyUpdate, List.map_cons, h0, Bool.false_eq_true, if_false]
    rw [show List.map (fun o => if o.id == k then { o with totalAmount := amt } else o) rest
        = applyUpdate k amt rest from rfl,
      ih (fun x hx => h x (List.mem_cons_of_mem _ hx))]

theorem applyUpdatesList_skip_head (k : Nat) (plans : List OrderPlan)
    (o : Order) (os : List Order) (h : o.id < k) :
    applyUpdatesList k plans (o :: os) = o :: applyUpdatesList k plans os := by
  induction plans generalizing k os with
  | nil => rfl
  | cons pl rest ih =>
    have h0 : (o.id == k) = false := beq_eq_false_iff_ne.mpr (by omega)
    simp only [applyUpdatesList, applyUpdate, List.map_cons, h0,
      Bool.false_eq_true, if_false]
    exact ih (k + 1) _ (by omega)

theorem applyUpdatesList_on_seed (oid : Nat) (plans : List OrderPlan) :
    applyUpdatesList oid plans (mkSeedOrders oid plans)
      = mkFinalOrders oid plans := by
  induction plans generalizing oid with
  | nil => rfl
  | cons pl rest ih =>
    have hskip : applyUpdate oid (planTotal pl) (mkSeedOrders (oid + 1) rest)
        = mkSeedOrders (oid + 1) rest :=
      applyUpdate_skips oid (planTotal pl) (mkSeedOrders (oid + 1) rest)
        (fun o ho => by have := mkSeedOrders_id_ge (oid + 1) rest o ho; omega)
    have hstep : applyUpdate oid (planTotal pl) (mkSeedOrders oid (pl :: rest))
        = { id := oid, userId := pl.userId, status := pl.status,
            totalAmount := planTotal pl, createdAt := pl.createdAt }
          :: mkSeedOrders (oid + 1) rest := by
      rw [show mkSeedOrders oid (pl :: rest)
          = { id := oid, userId := pl.userId, status := pl.status,
              totalAmount := 0, createdAt := pl.createdAt }
            :: mkSeedOrders (oid + 1) rest from rfl]
      rw [show applyUpdate oid (planTotal pl)
          ({ id := oid, userId := pl.userId, status := pl.status,
             totalAmount := 0, createdAt := pl.createdAt }
            :: mkSeedOrders (oid + 1) rest)
        = (if oid == oid
            then { id := oid, userId := pl.userId, status := pl.status,
                   totalAmount := planTotal pl, createdAt := pl.createdAt }
            else { id := oid, userId := pl.userId, status := pl.status,
                   totalAmount := 0, createdAt := pl.createdAt })
          :: applyUpdate oid (planTotal pl) (mkSeedOrders (oid + 1) rest)
        from rfl]
      rw [hskip, if_pos (beq_self_eq_true oid)]
    calc applyUpdatesList oid (pl :: rest) (mkSeedOrders oid (pl :: rest))
        = applyUpdatesList (oid + 1) rest
            (applyUpdate oid (planTotal pl) (mkSeedOrders oid (pl :: rest))) := rfl
      _ = applyUpdatesList (oid + 1) rest
            ({ id := oid, userId := pl.userId, status := pl.status,
               totalAmount := planTotal pl, createdAt := pl.createdAt }
              :: mkSeedOrders (oid + 1) rest) := by rw [hstep]
      _ = { id := oid, userId := pl.userId, status := pl.status,
            totalAmount := planTotal pl, createdAt := pl.createdAt }
            :: applyUpdatesList (oid + 1) rest (mkSeedOrders (oid + 1) rest) :=
          applyUpdatesList_skip_head (oid + 1) rest _ _ (Nat.lt_succ_self oid)
      _ = mkFinalOrders oid (pl :: rest) := by rw [ih (oid + 1)]; rfl

theorem applySeedWrites_updates (oid : Nat) (plans : List OrderPlan) (db : DB) :
    applySeedWrites db (mkSeedUpdates oid plans)
      = { db with orders := applyUpdatesList oid plans db.orders } := by
  induction plans generalizing oid db with
  | nil => rfl
  | cons pl rest ih =>
    simp only [mkSeedUpdates, applySeedWrites, List.foldl_cons]
    rw [show List.foldl applySeedWrite (applySeedWrite db (.updateTotal oid (planTotal pl)))
        (mkSeedUpdates (oid + 1) rest)
      = applySeedWrites (applySeedWrite db (.updateTotal oid (planTotal pl)))
        (mkSeedUpdates (oid + 1) rest) from rfl]
    rw [ih (oid + 1)]
    rfl

theorem applySeedWrites_batch (plans : List OrderPlan) (oid iid : Nat) :
    applySeedWrites emptyDB (seedOrdersBatch oid iid plans)
      = { users := [], categories := [], products := [],
          orders := mkFinalOrders oid plans,
          orderItems := mkSeedItems iid oid plans } := by
  rw [seedOrdersBatch]
  by_cases h : 0 < (mkSeedItems iid oid plans).length
  · rw [if_pos h]
    rw [show applySeedWrites emptyDB
        ([SeedWrite.insertOrders (mkSeedOrders oid plans)]
          ++ [SeedWrite.insertItems (mkSeedItems iid oid plans)]
          ++ mkSeedUpdates oid plans)
      = applySeedWrites
          { users := [], categories := [], products := [],
            orders := mkSeedOrders oid plans,
            orderItems := mkSeedItems iid oid plans }
          (mkSeedUpdates oid plans) from by
        simp [applySeedWrites, applySeedWrite, emptyDB]]
    rw [applySeedWrites_updates]
    simp [applyUpdatesList_on_seed]
  · rw [if_neg h]
    have hnil : mkSeedItems iid oid plans = [] := by
      have := Nat.eq_zero_of_not_pos h
      exact List.length_eq_zero.mp this
    rw [show applySeedWrites emptyDB
        ([SeedWrite.insertOrders (mkSeedOrders oid plans)] ++ []
          ++ mkSeedUpdates oid plans)
      = applySeedWrites
          { users := [], categories := [], products := [],
            orders := mkSeedOrders oid plans, orderItems := [] }
          (mkSeedUpdates oid plans) from by
        simp [applySeedWrites, applySeedWrite, emptyDB]]
    rw [applySeedWrites_updates]
    simp [applyUpdatesList_on_seed, hnil]

theorem seedItems_filter_sum (plans : List OrderPlan) (oid iid : Nat) :
    ∀ o ∈ mkFinalOrders oid plans,
      (((mkSeedItems iid oid plans).filter (fun i => i.orderId == o.id)).map
        (fun i => i.price * (i.quantity : ℚ))).sum = o.totalAmount := by
  induction plans generalizing oid iid with
  | nil => simp [mkFinalOrders]
  | cons pl rest ih =>
    intro o ho
    simp only [mkSeedItems, List.filter_append]
    rcases List.mem_cons.mp ho with rfl | ho'
    · have hblock : (mkPlanItems iid oid pl.items).filter
          (fun i => i.orderId == oid) = mkPlanItems iid oid pl.items :=
        List.filter_eq_self.mpr (fun i hi => by
          have := mkPlanItems_orderId iid oid pl.items i hi
          simp [this])
      have hrest : (mkSeedItems (iid + pl.items.length) (oid + 1) rest).filter
          (fun i => i.orderId == oid) = [] :=
        List.filter_eq_nil_iff.mpr (fun i hi => by
          have := mkSeedItems_orderId_ge (iid + pl.items.length) (oid + 1) rest i hi
          simp only [beq_iff_eq]
          omega)
      show ((((mkPlanItems iid oid pl.items).filter (fun i => i.orderId == oid))
          ++ ((mkSeedItems (iid + pl.items.length) (oid + 1) rest).filter
              (fun i => i.orderId == oid))).map
            (fun i => i.price * (i.quantity : ℚ))).sum = planTotal pl
      rw [hblock, hrest, List.append_nil, mkPlanItems_sum]
      rfl
    · have hid : oid + 1 ≤ o.id := mkFinalOrders_id_ge (oid + 1) rest o ho'
      have hblock : (mkPlanItems iid oid pl.items).filter
          (fun i => i.orderId == o.id) = [] :=
        List.filter_eq_nil_iff.mpr (fun i hi => by
          have := mkPlanItems_orderId iid oid pl.items i hi
          simp only [beq_iff_eq]
          omega)
      rw [hblock, List.nil_append]
      exact ih (oid + 1) (iid + pl.items.length) o ho'

/-- C6 counterexample: for a one-order batch whose single item costs 10.00
the generator's write trace persists the order row with `totalAmount = 0`
first, inserts the item rows, and only then patches the total to 10 in a
separate `UPDATE` — it does not compute the total before persisting. -/
theorem seedOrders_persists_zero_then_patches :
    seedOrdersBatch 1 1 [planEx]
      = [.insertOrders [{ id := 1, userId := 1, status := .pending,
                          totalAmount := 0, createdAt := 0 }],
         .insertItems [{ id := 1, orderId := 1, productId := 1, quantity := 1,
                         price := 10 }],
         .updateTotal 1 10]
    ∧ (0 : ℚ) ≠ 10 := by
  refine ⟨?_, by norm_num⟩
  norm_num [seedOrdersBatch, mkSeedOrders, mkSeedItems, mkPlanItems,
    mkSeedUpdates, planTotal, planEx, pEx10]

/-- C6 amended: `seedOrders` persists each order row with `totalAmount = 0`,
bulk-inserts the generated items, and then patches each order's total in a
separate update pass; after that pass every stored order's `totalAmount`
equals the sum of its item rows' `price * quantity`. -/
theorem seedOrders_totals_after_update_pass
    (plans : List OrderPlan) (oid iid : Nat) :
    (∀ os, SeedWrite.insertOrders os ∈ seedOrdersBatch oid iid plans →
        ∀ o ∈ os, o.totalAmount = 0)
    ∧ (∀ o ∈ (applySeedWrites emptyDB (seedOrdersBatch oid iid plans)).orders,
        o.totalAmount =
          (((applySeedWrites emptyDB (seedOrdersBatch oid iid plans)).orderItems.filter
              (fun i => i.orderId == o.id)).map
            (fun i => i.price * (i.quantity : ℚ))).sum) := by
  constructor
  · intro os hos
    have hchar : os = mkSeedOrders oid plans := by
      rcases List.mem_append.mp hos with h1 | h2
      · rcases List.mem_append.mp h1 with ha | hb
        · exact SeedWrite.insertOrders.inj (List.mem_singleton.mp ha)
        · by_cases hc : 0 < (mkSeedItems iid oid plans).length
          · rw [if_pos hc] at hb
            have := List.mem_singleton.mp hb
            exact absurd this (by simp)
          · rw [if_neg hc] at hb
            exact absurd hb (List.not_mem_nil _)
      · obtain ⟨k, a, hka⟩ := mkSeedUpdates_only_updates oid plans _ h2
        exact absurd hka (by simp)
    rw [hchar]
    exact mkSeedOrders_total_zero oid plans
  · intro o ho
    rw [applySeedWrites_batch] at ho ⊢
    exact (seedItems_filter_sum plans oid iid o ho).symm

theorem seedOrders_totals_witness :
    SeedWrite.insertOrders (mkSeedOrders 1 [planEx]) ∈ seedOrdersBatch 1 1 [planEx]
    ∧ (∀ o ∈ mkSeedOrders 1 [planEx], o.totalAmount = 0)
    ∧ (∀ o ∈ (applySeedWrites emptyDB (seedOrdersBatch 1 1 [planEx])).orders,
        o.totalAmount =
          (((applySeedWrites emptyDB (seedOrdersBatch 1 1 [planEx])).orderItems.filter
              (fun i => i.orderId == o.id)).map
            (fun i => i.price * (i.quantity : ℚ))).sum) := by
  have h := seedOrders_totals_after_update_pass [planEx] 1 1
  have hmem : SeedWrite.insertOrders (mkSeedOrders 1 [planEx])
      ∈ seedOrdersBatch 1 1 [planEx] :=
    List.mem_append.mpr (Or.inl (List.mem_append.mpr
      (Or.inl (List.mem_singleton.mpr rfl))))
  exact ⟨hmem, h.1 _ hmem, h.2⟩

/-! ## Dataset Generator uniqueness theorems -/

theorem pickFresh_not_used (used : List String) (stream : List String)
    (e : String) (rest : List String)
    (h : pickFresh used stream = some (e, rest)) : e ∉ used := by
  induction stream with
  | nil => simp [pickFresh] at h
  | cons x xs ih =>
    by_cases hx : x ∈ used
    · exact ih (by simpa [pickFresh, hx] using h)
    · have h' : some (x, xs) = some (e, rest) := by
        simpa [pickFresh, hx] using h
      injection h' with h''
      injection h'' with h1 h2
      subst h1
      exact hx

theorem dedupDraws_nodup_fresh (n : Nat) (stream used : List String) :
    (dedupDraws n stream used).Nodup
    ∧ ∀ e ∈ dedupDraws n stream used, e ∉ used := by
  induction n generalizing stream used with
  | zero => simp [dedupDraws]
  | succ m ih =>
    cases hp : pickFresh used stream with
    | none => simp [dedupDraws, hp]
    | some pr =>
      obtain ⟨e, rest⟩ := pr
      obtain ⟨ihnd, ihfr⟩ := ih rest (e :: used)
      have he : e ∉ used := pickFresh_not_used used stream e rest hp
      constructor
      · simp only [dedupDraws, hp, List.nodup_cons]
        exact ⟨fun hmem => (ihfr e hmem) (List.mem_cons_self _ _), ihnd⟩
      · intro x hx
        simp only [dedupDraws, hp, List.mem_cons] at hx
        rcases hx with rfl | hx
        · exact he
        · exact fun hxu => (ihfr x hx) (List.mem_cons_of_mem _ hxu)

/-- C7 counterexample: the generator derives emails from the random faker
stream alone — it has no run-identifier input — so two append-style runs
whose random draws collide produce the same `User.email`: running with the
two distinct draw streams below yields the identical email both times. -/
theorem seed_cross_run_email_collision :
    (["x@y.z"] : List String) ≠ ["x@y.z", "w@v.u"]
    ∧ seedUsersEmails 1 ["x@y.z"] = ["x@y.z"]
    ∧ seedUsersEmails 1 ["x@y.z", "w@v.u"] = ["x@y.z"]
    ∧ ∃ e, e ∈ seedUsersEmails 1 ["x@y.z"]
        ∧ e ∈ seedUsersEmails 1 ["x@y.z", "w@v.u"] := by
  refine ⟨by decide, by decide, by decide, "x@y.z", by decide, by decide⟩

/-- C7 amended: uniqueness of generated `User.email`s and `Category.name`s is
guaranteed only *within* a single run, by deduplicating the random faker
draws against an in-memory set; the generator takes no run identifier and
always recreates the schema (`sequelize.sync({ force: true })`), so
non-collision against rows of a previous run is not provided. -/
theorem seed_unique_within_single_run (count : Nat) (stream : List String) :
    (seedUsersEmails count stream).Nodup
    ∧ (seedCategoryNames count stream).Nodup :=
  ⟨(dedupDraws_nodup_fresh count stream []).1,
   (dedupDraws_nodup_fresh count stream []).1⟩

end NodeTester
